import Mathlib

set_option maxHeartbeats 1000000

/-!
Shallow embedding of the mwf web framework core: the route resolution
engine (src/resolution.rs and src/routing.rs), the router dispatch loop
(src/routing.rs), the server response boundary (src/server.rs), and the
view and decorator pipeline (src/view.rs and src/decorator.rs).
-/

/-- Request methods: the subset of hyper::Method that the framework code
distinguishes (only equality of methods is ever used). -/
inductive Method
  | get
  | post
  | put
  | delete
  | head
deriving DecidableEq

/-- RouteMap (resolution.rs, routing.rs): a map of variables to their
values in the route path. Modelled as an association list kept in
insertion order; all inserts go through insertNew, which keeps keys
unique. -/
abbrev RouteMap := List (String × String)

/-- Models HashMap::insert combined with the panic-on-duplicate check the
resolvers perform on its returned old value: none when the key is already
present (the Rust code panics in that case), otherwise the map extended
with the new binding. -/
def insertNew (m : RouteMap) (k v : String) : Option RouteMap :=
  if m.any (fun p => p.1 == k) then none else some (m ++ [(k, v)])

/-- The outcome of Resolver::resolve with the runtime panic made explicit:
Rust Option None is noMatch, Some is matched, and the runtime panic
raised on a duplicate variable name is panicked. -/
inductive ResolveOutcome
  | panicked
  | noMatch
  | matched (map : RouteMap)
deriving DecidableEq

namespace Resolution

/-- Token (resolution.rs): literal, variable, or optional segment. -/
inductive Token
  | literal (s : String)
  | var (name : String)
  | optional (name : String)
deriving DecidableEq

/-- The token classification closure inside StandardResolver::new
(resolution.rs): token.starts_with(":") makes a variable, additionally
token.ends_with("?") makes an optional, anything else is a literal. The
one-character pattern tests are expressed on the character list: a string
starts with ":" exactly when its first character is a colon, and ends
with "?" exactly when its last character is a question mark. -/
def classify (token : String) : Token :=
  if token.data.head? = some ':' then
    if token.data.getLast? = some '?' then Token.optional token
    else Token.var token
  else Token.literal token

/-- StandardResolver (resolution.rs): the request method and the compiled
route specification. -/
structure StandardResolver where
  method : Method
  spec : List Token
deriving DecidableEq

/-- StandardResolver::new (resolution.rs): classify every segment of the
spec; no validation of any kind is performed. -/
def StandardResolver.new (method : Method) (spec : List String) : StandardResolver :=
  { method := method, spec := spec.map classify }

/-- ResolveParams (resolution.rs): request method and requested route. -/
structure ResolveParams where
  method : Method
  route : List String

/-- The while loop of StandardResolver::resolve (resolution.rs). The index
i walks the spec and the route in lockstep (route.get(i) is None from the
first index past the end on), so the loop is structural recursion on the
spec carrying the unconsumed route; when the spec is exhausted the final
check (i < params.route.len()) asks whether route segments remain. A
literal needs a present, equal segment; a variable needs a present
segment and binds it; an optional binds the present segment, or the empty
string when the route is exhausted. Inserting over an existing key
panics. -/
def resolveTokens : List Token → List String → RouteMap → ResolveOutcome
  | [], [], map => ResolveOutcome.matched map
  | [], _ :: _, _ => ResolveOutcome.noMatch
  | Token.literal expected :: spec, route, map =>
    match route with
    | [] => ResolveOutcome.noMatch
    | actual :: route =>
      if actual = expected then resolveTokens spec route map
      else ResolveOutcome.noMatch
  | Token.var name :: spec, route, map =>
    match route with
    | [] => ResolveOutcome.noMatch
    | actual :: route =>
      match insertNew map name actual with
      | none => ResolveOutcome.panicked
      | some map => resolveTokens spec route map
  | Token.optional name :: spec, route, map =>
    match route with
    | [] =>
      match insertNew map name "" with
      | none => ResolveOutcome.panicked
      | some map => resolveTokens spec [] map
    | actual :: route =>
      match insertNew map name actual with
      | none => ResolveOutcome.panicked
      | some map => resolveTokens spec route map

/-- Resolver::resolve for StandardResolver (resolution.rs): resolution
MUST have the same request method, then the token walk runs on a fresh
empty map. -/
def StandardResolver.resolve (r : StandardResolver) (params : ResolveParams) : ResolveOutcome :=
  if params.method ≠ r.method then ResolveOutcome.noMatch
  else resolveTokens r.spec params.route []

end Resolution

/-- A MIME type tag (iron::mime::Mime), kept as its raw text. -/
structure Mime where
  raw : String
deriving DecidableEq

/-- The default mime type of a view, from "text/plain".parse().unwrap()
in View::new (view.rs). -/
def Mime.textPlain : Mime := { raw := "text/plain" }

/-- View (view.rs): a content string plus its MIME type. -/
structure View where
  content : String
  mime : Mime
deriving DecidableEq

/-- View::new (view.rs): the given content with the default mime type
"text/plain". -/
def View.new (content : String) : View :=
  { content := content, mime := Mime.textPlain }

/-- The error side of ViewResult is a boxed error; the framework only
ever renders its display text (reason.to_string()), so it is represented
by that text. -/
abbrev ErrorMsg := String

/-- ViewResult (view.rs): Result of View and a boxed error. -/
abbrev ViewResult := Except ErrorMsg View

/-- The From String impl for View (view.rs): just View::new. -/
def View.ofContent (content : String) : View := View.new content

/-- View::from (view.rs): literally Ok(content.into()). -/
def View.fromContent (content : String) : ViewResult :=
  Except.ok (View.ofContent content)

/-- The Into (String, Mime) impl for View (view.rs). -/
def View.intoPair (v : View) : String × Mime :=
  (v.content, v.mime)

namespace Routing

/-- RouteSpec (routing.rs): literal, variable, or optional segment. -/
inductive RouteSpec
  | literal (s : String)
  | var (name : String)
  | optional (name : String)
deriving DecidableEq

/-- StandardResolver (routing.rs): the compiled route specification. -/
structure StandardResolver where
  route : List RouteSpec
deriving DecidableEq

/-- StandardResolver::new (routing.rs): classify every segment, exactly
as in resolution.rs (leading colon makes a variable, additionally a
trailing question mark makes an optional, otherwise a literal). -/
def StandardResolver.new (route : List String) : StandardResolver :=
  { route := route.map (fun spec =>
      if spec.data.head? = some ':' then
        if spec.data.getLast? = some '?' then RouteSpec.optional spec
        else RouteSpec.var spec
      else RouteSpec.literal spec) }

/-- The while loop of Resolver::resolve for the routing.rs
StandardResolver. Its two indices i (into the spec) and j (into the
route) are incremented together in every branch, so the loop is the same
lockstep walk as in resolution.rs, and the final check (j < route.len())
asks whether route segments remain. -/
def resolveSpecs : List RouteSpec → List String → RouteMap → ResolveOutcome
  | [], [], map => ResolveOutcome.matched map
  | [], _ :: _, _ => ResolveOutcome.noMatch
  | RouteSpec.literal expected :: spec, route, map =>
    match route with
    | [] => ResolveOutcome.noMatch
    | actual :: route =>
      if actual = expected then resolveSpecs spec route map
      else ResolveOutcome.noMatch
  | RouteSpec.var name :: spec, route, map =>
    match route with
    | [] => ResolveOutcome.noMatch
    | actual :: route =>
      match insertNew map name actual with
      | none => ResolveOutcome.panicked
      | some map => resolveSpecs spec route map
  | RouteSpec.optional name :: spec, route, map =>
    match route with
    | [] =>
      match insertNew map name "" with
      | none => ResolveOutcome.panicked
      | some map => resolveSpecs spec [] map
    | actual :: route =>
      match insertNew map name actual with
      | none => ResolveOutcome.panicked
      | some map => resolveSpecs spec route map

/-- Resolver::resolve for StandardResolver (routing.rs). -/
def StandardResolver.resolve (r : StandardResolver) (route : List String) : ResolveOutcome :=
  resolveSpecs r.route route []

/-- One registered entry: a compiled resolver paired with its handler
(the elements of RouterBuilder.resolvers and Router.resolvers in
routing.rs). Resolvers and handlers are boxed trait objects in the
source, so they are kept abstract as functions here, with the potential
resolver panic explicit in the outcome type. -/
structure RouterEntry where
  resolve : List String → ResolveOutcome
  handle : RouteMap → ViewResult

/-- Router (routing.rs): the finalized list of resolvers and handlers. -/
structure Router where
  resolvers : List RouterEntry

deriving instance DecidableEq for Except

/-- The result of Router::handle (routing.rs), an Option of the handler
result, with the potential resolver panic explicit. -/
inductive DispatchOutcome
  | panicked
  | notFound
  | handled (result : ViewResult)
deriving DecidableEq

/-- The for loop of Router::handle (routing.rs): try each entry in order;
on the first successful resolution return whatever the handler yields;
if no entry accepts, report that nothing handled the request. -/
def handleEntries : List RouterEntry → List String → DispatchOutcome
  | [], _ => DispatchOutcome.notFound
  | entry :: rest, route =>
    match entry.resolve route with
    | ResolveOutcome.panicked => DispatchOutcome.panicked
    | ResolveOutcome.noMatch => handleEntries rest route
    | ResolveOutcome.matched data => DispatchOutcome.handled (entry.handle data)

/-- Router::handle (routing.rs): remove all of the empty strings from the
request path, then run the dispatch loop. -/
def Router.handle (r : Router) (path : List String) : DispatchOutcome :=
  handleEntries r.resolvers (path.filter (fun s => !s.data.isEmpty))

/-- The path preparation in RouterBuilder::bind (routing.rs): split the
path string on "/" and drop the empty pieces. Splitting on the single
character slash is expressed on the character list. -/
def splitPath (path : String) : List String :=
  ((path.data.splitOn '/').filter (fun s => !s.isEmpty)).map (fun s => String.mk s)

/-- RouterBuilder (routing.rs): the resolver constructor in use and the
list of resolvers bound so far. -/
structure RouterBuilder where
  constructor : List String → (List String → ResolveOutcome)
  resolvers : List RouterEntry

/-- RouterBuilder::new (routing.rs): the constructor defaults to
StandardResolver::new. -/
def RouterBuilder.new : RouterBuilder :=
  { constructor := fun spec => (StandardResolver.new spec).resolve
    resolvers := [] }

/-- RouterBuilder::bind (routing.rs): split the path, instance a new
resolver using the current constructor, and push the pair onto the end
of the resolver list. -/
def RouterBuilder.bind (b : RouterBuilder) (path : String)
    (handler : RouteMap → ViewResult) : RouterBuilder :=
  { b with resolvers :=
      b.resolvers ++ [{ resolve := b.constructor (splitPath path), handle := handler }] }

/-- The Into Router impl for RouterBuilder (routing.rs). -/
def RouterBuilder.intoRouter (b : RouterBuilder) : Router :=
  { resolvers := b.resolvers }

end Routing

namespace ServerMod

/-- The response status codes Server::handle uses (server.rs). -/
inductive Status
  | ok
  | notFound
  | internalServerError
deriving DecidableEq

/-- One page of the server: a route resolver paired with a page handler
(the elements of Server.pages in server.rs). -/
structure Page where
  resolve : List String → Option RouteMap
  handle : RouteMap → ViewResult

/-- route.join("/") in the not-found branch of Server::handle. -/
def joinPath (route : List String) : String :=
  String.intercalate "/" route

/-- The body of Server::handle (server.rs): try each page resolver in the
order of the pages list; on the first match run its handler, mapping Ok
to a 200 response carrying the view content and Err to a 500 response
carrying the display text of the error; if no page accepts the route,
run the 404 handler on a map holding the joined path, mapping Ok to a
404 response and Err to a 500 response. -/
def handlePages : List Page → (RouteMap → ViewResult) → List String → Status × String
  | [], pageNotFound, route =>
    match pageNotFound [("path", joinPath route)] with
    | Except.ok content => (Status.notFound, content.content)
    | Except.error reason => (Status.internalServerError, reason)
  | page :: rest, pageNotFound, route =>
    match page.resolve route with
    | none => handlePages rest pageNotFound route
    | some data =>
      match page.handle data with
      | Except.ok content => (Status.ok, content.content)
      | Except.error reason => (Status.internalServerError, reason)

/-- Server (server.rs): the compiled pages and the 404 handler. -/
structure Server where
  pages : List Page
  pageNotFound : RouteMap → ViewResult

/-- Server::handle (server.rs). -/
def Server.handle (s : Server) (route : List String) : Status × String :=
  handlePages s.pages s.pageNotFound route

end ServerMod

/-- Surround (decorator.rs): fixed leading and trailing strings. -/
structure Surround where
  pre : String
  post : String
deriving DecidableEq

/-- Surround::new (decorator.rs). -/
def Surround.new (pre post : String) : Surround :=
  { pre := pre, post := post }

/-- Rust str::split with a multi-character pattern, on character lists:
scan left to right; at the first position where the separator is a prefix
of the remaining text, the chunk read so far ends and scanning resumes
right after the separator. For a nonempty separator this is exactly the
Rust semantics; the separator used below is always nonempty (for an
empty separator the guard makes this return the whole input as one
chunk, a case the code never exercises). -/
def sepSplit (sep : List Char) : List Char → List (List Char)
  | [] => [[]]
  | a :: rest =>
    if !sep.isEmpty && sep.isPrefixOf (a :: rest) then
      [] :: sepSplit sep (rest.drop (sep.length - 1))
    else
      match sepSplit sep rest with
      | [] => [[a]]
      | chunk :: chunks => (a :: chunk) :: chunks
termination_by l => l.length
decreasing_by
  all_goals simp_wf
  all_goals omega

/-- The delimiter of Surround::from (decorator.rs), the literal
"\x7b\x7bmiddle\x7d\x7d". -/
def middleStr : String := "\x7b\x7bmiddle\x7d\x7d"

/-- The delimiter as a character list. -/
def midSep : List Char := middleStr.data

/-- Surround::from (decorator.rs): split the input on the delimiter, keep
only the first two chunks, then pop twice: the last remaining chunk
becomes the suffix and the chunk before it becomes the prefix, each
defaulting to the empty string when absent. -/
def Surround.fromTemplate (input : String) : Surround :=
  let vec := (sepSplit midSep input.data).take 2
  let post := (vec.getLast?).getD []
  let vec := vec.dropLast
  let pre := (vec.getLast?).getD []
  { pre := String.mk pre, post := String.mk post }

/-- Decorator::decorate for Surround (decorator.rs): the new content is
the prefix, the old content, and the suffix in order; the mime type is
carried over unchanged. -/
def Surround.decorate (d : Surround) (v : View) : View :=
  { content := d.pre ++ v.content ++ d.post, mime := v.mime }

/-- Whether sep occurs contiguously inside the text: at some position the
separator starts there. Used to state the delimiter-counting parts of
the Surround::from claims. -/
def containsSeq (sep : List Char) : List Char → Bool
  | [] => false
  | a :: rest => sep.isPrefixOf (a :: rest) || containsSeq sep rest

/-!
Theorems. Helper lemmas come first; the claim theorems follow, one per
claim, each preceded by a doc comment naming the claim.
-/

/-- A resolver whose spec consists solely of literal tokens walks the
route in lockstep requiring exact equality, so it matches exactly the
literal sequence itself and binds nothing. -/
theorem resolveTokens_literals (lits : List String) :
    ∀ (path : List String) (map : RouteMap),
      Resolution.resolveTokens (lits.map Resolution.Token.literal) path map =
        if path = lits then ResolveOutcome.matched map else ResolveOutcome.noMatch := by
  induction lits with
  | nil =>
    intro path map
    cases path <;> simp [Resolution.resolveTokens]
  | cons l ls ih =>
    intro path map
    cases path with
    | nil => simp [Resolution.resolveTokens]
    | cons a as =>
      by_cases h : a = l
      · subst h
        simp [Resolution.resolveTokens, ih, List.cons.injEq]
      · simp [Resolution.resolveTokens, h, List.cons.injEq]

/-- C4: for every resolver compiled from a specification containing only
Literal tokens and every candidate path presented with the registered
request method, resolution succeeds with an empty binding map exactly
when the path is segment-wise identical to the literal sequence, and any
length or content mismatch yields the no-match outcome (not an error and
not a panic). -/
theorem c4_literal_only_exact_match (lits path : List String) (method : Method) :
    Resolution.StandardResolver.resolve
        { method := method, spec := lits.map Resolution.Token.literal }
        { method := method, route := path } =
      if path = lits then ResolveOutcome.matched [] else ResolveOutcome.noMatch := by
  simp [Resolution.StandardResolver.resolve, resolveTokens_literals]

/-- C3: a trailing Optional token binds a present segment and binds the
empty string when absent, and leftover unconsumed path segments defeat
the match; the seven edge cases of the claim, under the registered
request method. -/
theorem c3_trailing_optional_cases :
    (Resolution.StandardResolver.new Method.get [":x?"]).resolve
        { method := Method.get, route := [] } = ResolveOutcome.matched [(":x?", "")] ∧
      (Resolution.StandardResolver.new Method.get [":x?"]).resolve
          { method := Method.get, route := ["a"] } = ResolveOutcome.matched [(":x?", "a")] ∧
      (Resolution.StandardResolver.new Method.get [":x?"]).resolve
          { method := Method.get, route := ["a", "b"] } = ResolveOutcome.noMatch ∧
      (Resolution.StandardResolver.new Method.get ["foo", ":bar", ":baz?"]).resolve
          { method := Method.get, route := ["foo"] } = ResolveOutcome.noMatch ∧
      (Resolution.StandardResolver.new Method.get ["foo", ":bar", ":baz?"]).resolve
          { method := Method.get, route := ["foo", "bar"] } =
        ResolveOutcome.matched [(":bar", "bar"), (":baz?", "")] ∧
      (Resolution.StandardResolver.new Method.get ["foo", ":bar", ":baz?"]).resolve
          { method := Method.get, route := ["foo", "bar", "baz"] } =
        ResolveOutcome.matched [(":bar", "bar"), (":baz?", "baz")] ∧
      (Resolution.StandardResolver.new Method.get ["foo", ":bar", ":baz?"]).resolve
          { method := Method.get, route := ["foo", "bar", "baz", "extra"] } =
        ResolveOutcome.noMatch := by
  decide

/-- C2: evaluation of the code on the duplicate-variable specification
":a/:a". StandardResolver::new accepts it without any error (it has no
error channel at all and produces the two-variable spec), and the first
request matching both variable positions makes resolve panic at runtime
instead of having been rejected at startup. -/
theorem c2_duplicate_spec_panics :
    (Resolution.StandardResolver.new Method.get [":a", ":a"]).spec =
        [Resolution.Token.var ":a", Resolution.Token.var ":a"] ∧
      (Resolution.StandardResolver.new Method.get [":a", ":a"]).resolve
          { method := Method.get, route := ["x", "y"] } = ResolveOutcome.panicked := by
  decide

/-- C9: a method mismatch alone makes resolve return the no-match
outcome for every possible path, before any token or segment is
examined. -/
theorem c9_method_mismatch_rejects (r : Resolution.StandardResolver)
    (method : Method) (route : List String) (h : method ≠ r.method) :
    r.resolve { method := method, route := route } = ResolveOutcome.noMatch := by
  simp [Resolution.StandardResolver.resolve, h]

/-- Witness for C9: a GET resolver refuses a POST request outright, even
on the duplicate-variable spec whose token walk would panic. -/
theorem c9_method_mismatch_rejects_witness :
    Method.post ≠ (Resolution.StandardResolver.new Method.get [":a", ":a"]).method ∧
      (Resolution.StandardResolver.new Method.get [":a", ":a"]).resolve
          { method := Method.post, route := ["x", "y"] } = ResolveOutcome.noMatch :=
  ⟨by decide, c9_method_mismatch_rejects _ _ _ (by decide)⟩

/-- C10: Optional tokens are greedy with no backtracking: whenever a
path segment remains at the position of an Optional token, the token
consumes and binds that segment (first conjunct), so the specification
"foo/:a?/bar" does not match the path foo/bar even though binding the
optional to the empty string would satisfy every token (second
conjunct). -/
theorem c10_optional_greedy
    (name : String) (spec : List Resolution.Token) (actual : String)
    (route : List String) (map : RouteMap)
    (h : map.any (fun p => p.1 == name) = false) :
    Resolution.resolveTokens (Resolution.Token.optional name :: spec) (actual :: route) map =
        Resolution.resolveTokens spec route (map ++ [(name, actual)]) ∧
      (Resolution.StandardResolver.new Method.get ["foo", ":a?", "bar"]).resolve
          { method := Method.get, route := ["foo", "bar"] } = ResolveOutcome.noMatch := by
  constructor
  · simp [Resolution.resolveTokens, insertNew, h]
  · decide

/-- Witness for C10: on a fresh map the optional token ":a?" consumes
the present segment "bar". -/
theorem c10_optional_greedy_witness :
    ([] : RouteMap).any (fun p => p.1 == ":a?") = false ∧
      Resolution.resolveTokens [Resolution.Token.optional ":a?"] ["bar"] [] =
        Resolution.resolveTokens [] [] [(":a?", "bar")] :=
  ⟨rfl, (c10_optional_greedy ":a?" [] "bar" [] [] rfl).1⟩

/-- C6: constructing a View from any content string always succeeds, and
immediately extracting the content and MIME pair returns exactly the
original content together with the default plain-text MIME tag. -/
theorem c6_view_roundtrip (content : String) :
    View.fromContent content = Except.ok { content := content, mime := Mime.textPlain } ∧
      (View.new content).intoPair = (content, Mime.textPlain) :=
  ⟨rfl, rfl⟩

/-- C8: a Surround decorator built from prefix p and suffix s rewrites
the content to p, the old content, s in order and leaves the MIME type
unchanged. -/
theorem c8_surround_preserves_mime (p s : String) (v : View) :
    (Surround.new p s).decorate v = { content := p ++ v.content ++ s, mime := v.mime } :=
  rfl

/-- Entries that all decline a route are skipped by the dispatch loop. -/
theorem handleEntries_append_noMatch (skipped rest : List Routing.RouterEntry)
    (route : List String)
    (h : ∀ e ∈ skipped, e.resolve route = ResolveOutcome.noMatch) :
    Routing.handleEntries (skipped ++ rest) route = Routing.handleEntries rest route := by
  induction skipped with
  | nil => rfl
  | cons e es ih =>
    have he := h e (by simp)
    simp only [List.cons_append, Routing.handleEntries, he]
    exact ih (fun e' h' => h e' (by simp [h']))

/-- The dispatch loop reports not-found exactly when every entry
declines the route. -/
theorem handleEntries_notFound_iff (entries : List Routing.RouterEntry)
    (route : List String) :
    Routing.handleEntries entries route = Routing.DispatchOutcome.notFound ↔
      ∀ e ∈ entries, e.resolve route = ResolveOutcome.noMatch := by
  induction entries with
  | nil => simp [Routing.handleEntries]
  | cons e es ih =>
    cases he : e.resolve route <;>
      simp [Routing.handleEntries, he, ih]

/-- Pages that all decline a route are skipped by the server loop. -/
theorem handlePages_append_none (skipped rest : List ServerMod.Page)
    (pageNotFound : RouteMap → ViewResult) (route : List String)
    (h : ∀ p ∈ skipped, p.resolve route = none) :
    ServerMod.handlePages (skipped ++ rest) pageNotFound route =
      ServerMod.handlePages rest pageNotFound route := by
  induction skipped with
  | nil => rfl
  | cons p ps ih =>
    have hp := h p (by simp)
    simp only [List.cons_append, ServerMod.handlePages, hp]
    exact ih (fun p' h' => h p' (by simp [h']))

/-- C1: the Router tries the compiled resolvers in registration order and
invokes exactly the handler paired with the first resolver that matches
(first conjunct); the no-match outcome arises exactly when every
resolver declines (second conjunct); and registering spec "foo" before
spec ":x" and requesting the path foo invokes the "foo" handler, never
the ":x" handler (third and fourth conjuncts). -/
theorem c1_dispatch_first_match :
    (∀ (skipped rest : List Routing.RouterEntry) (e : Routing.RouterEntry)
        (path : List String) (map : RouteMap),
        (∀ e' ∈ skipped,
          e'.resolve (path.filter (fun s => !s.data.isEmpty)) = ResolveOutcome.noMatch) →
        e.resolve (path.filter (fun s => !s.data.isEmpty)) = ResolveOutcome.matched map →
        Routing.Router.handle { resolvers := skipped ++ e :: rest } path =
          Routing.DispatchOutcome.handled (e.handle map)) ∧
    (∀ (r : Routing.Router) (path : List String),
        r.handle path = Routing.DispatchOutcome.notFound ↔
          ∀ e ∈ r.resolvers,
            e.resolve (path.filter (fun s => !s.data.isEmpty)) = ResolveOutcome.noMatch) ∧
    (Routing.RouterBuilder.new.bind "foo" (fun _ => Except.ok (View.new "foo page"))
        |>.bind ":x" (fun _ => Except.ok (View.new "var page"))
        |>.intoRouter.handle ["foo"]) =
      Routing.DispatchOutcome.handled (Except.ok (View.new "foo page")) ∧
    (Routing.RouterBuilder.new.bind "foo" (fun _ => Except.ok (View.new "foo page"))
        |>.bind ":x" (fun _ => Except.ok (View.new "var page"))
        |>.intoRouter.handle ["foo"]) ≠
      Routing.DispatchOutcome.handled (Except.ok (View.new "var page")) := by
  refine ⟨?_, ?_, rfl, by decide⟩
  · intro skipped rest e path map hskip hm
    unfold Routing.Router.handle
    rw [handleEntries_append_noMatch _ _ _ hskip]
    simp [Routing.handleEntries, hm]
  · intro r path
    exact handleEntries_notFound_iff _ _

/-- Witness for C1: a singleton router whose only resolver matches with
an empty binding map dispatches to its handler. -/
theorem c1_dispatch_first_match_witness :
    Routing.Router.handle
        { resolvers := [{ resolve := fun _ => ResolveOutcome.matched [],
                          handle := fun _ => Except.ok (View.new "w") }] } ["w"] =
      Routing.DispatchOutcome.handled (Except.ok (View.new "w")) :=
  c1_dispatch_first_match.1 [] [] _ ["w"] [] (by simp) rfl

/-- C7: the Router forwards a matched handler result unchanged, in
particular a handler error (first conjunct); at the server response
boundary a matched handler error is rendered as a 500 response carrying
the display text of the error (second conjunct), a matched handler
success as a 200 response carrying the content (third conjunct), and an
unmatched route as the distinct 404 outcome of the not-found page
(fourth conjunct). -/
theorem c7_handler_errors_forwarded :
    (∀ (skipped rest : List Routing.RouterEntry) (e : Routing.RouterEntry)
        (path : List String) (map : RouteMap) (err : ErrorMsg),
        (∀ e' ∈ skipped,
          e'.resolve (path.filter (fun s => !s.data.isEmpty)) = ResolveOutcome.noMatch) →
        e.resolve (path.filter (fun s => !s.data.isEmpty)) = ResolveOutcome.matched map →
        e.handle map = Except.error err →
        Routing.Router.handle { resolvers := skipped ++ e :: rest } path =
          Routing.DispatchOutcome.handled (Except.error err)) ∧
    (∀ (skipped rest : List ServerMod.Page) (page : ServerMod.Page)
        (pageNotFound : RouteMap → ViewResult) (route : List String)
        (map : RouteMap) (err : ErrorMsg),
        (∀ p ∈ skipped, p.resolve route = none) →
        page.resolve route = some map →
        page.handle map = Except.error err →
        ServerMod.Server.handle { pages := skipped ++ page :: rest, pageNotFound } route =
          (ServerMod.Status.internalServerError, err)) ∧
    (∀ (skipped rest : List ServerMod.Page) (page : ServerMod.Page)
        (pageNotFound : RouteMap → ViewResult) (route : List String)
        (map : RouteMap) (v : View),
        (∀ p ∈ skipped, p.resolve route = none) →
        page.resolve route = some map →
        page.handle map = Except.ok v →
        ServerMod.Server.handle { pages := skipped ++ page :: rest, pageNotFound } route =
          (ServerMod.Status.ok, v.content)) ∧
    (∀ (pages : List ServerMod.Page) (pageNotFound : RouteMap → ViewResult)
        (route : List String) (v : View),
        (∀ p ∈ pages, p.resolve route = none) →
        pageNotFound [("path", ServerMod.joinPath route)] = Except.ok v →
        ServerMod.Server.handle { pages := pages, pageNotFound } route =
          (ServerMod.Status.notFound, v.content)) := by
  refine ⟨?_, ?_, ?_, ?_⟩
  · intro skipped rest e path map err hskip hm herr
    unfold Routing.Router.handle
    rw [handleEntries_append_noMatch _ _ _ hskip]
    simp [Routing.handleEntries, hm, herr]
  · intro skipped rest page pageNotFound route map err hskip hm herr
    unfold ServerMod.Server.handle
    rw [handlePages_append_none _ _ _ _ hskip]
    simp [ServerMod.handlePages, hm, herr]
  · intro skipped rest page pageNotFound route map v hskip hm hok
    unfold ServerMod.Server.handle
    rw [handlePages_append_none _ _ _ _ hskip]
    simp [ServerMod.handlePages, hm, hok]
  · intro pages pageNotFound route v hnone hok
    unfold ServerMod.Server.handle
    rw [show pages = pages ++ [] by simp, handlePages_append_none _ _ _ _ hnone]
    simp [ServerMod.handlePages, hok]

/-- A text without any occurrence of the separator splits into the one
chunk that is the whole text. -/
theorem sepSplit_of_not_contains (sep : List Char) :
    ∀ l : List Char, containsSeq sep l = false → sepSplit sep l = [l] := by
  intro l
  induction l with
  | nil => intro _; simp [sepSplit]
  | cons a rest ih =>
    intro h
    simp only [containsSeq, Bool.or_eq_false_iff] at h
    simp only [sepSplit, h.1, Bool.and_false, Bool.false_eq_true, if_false, ih h.2]

/-- A text that begins with the (nonempty) separator contains it. -/
theorem containsSeq_of_prefix (sep t : List Char) (hne : sep ≠ []) (h : sep <+: t) :
    containsSeq sep t = true := by
  cases t with
  | nil =>
    rw [List.prefix_nil] at h
    exact absurd h hne
  | cons a rest =>
    simp only [containsSeq, Bool.or_eq_true, List.isPrefixOf_iff_prefix]
    exact Or.inl h

/-- For a border-free separator, the separator cannot start strictly
before the occurrence laid down by the decomposition p ++ sep ++ s when
p is nonempty and does not contain it: a shorter start would either put
the separator inside p or make a proper tail of the separator one of its
own prefixes. -/
theorem not_prefix_of_append_sep (sep p s : List Char)
    (hBF : ∀ k, k < sep.length → 0 < k → ¬ sep.drop k <+: sep)
    (hp : containsSeq sep p = false) (hne : p ≠ []) :
    ¬ sep <+: p ++ (sep ++ s) := by
  intro h
  rcases le_or_lt sep.length p.length with hle | hlt
  · have hps : p <+: p ++ (sep ++ s) := List.prefix_append _ _
    have hsp : sep <+: p := List.prefix_of_prefix_length_le h hps hle
    have hsep_ne : sep ≠ [] := by
      intro hx
      subst hx
      cases p with
      | nil => exact hne rfl
      | cons a rest => simp [containsSeq] at hp
    have := containsSeq_of_prefix sep p hsep_ne hsp
    rw [hp] at this
    exact Bool.false_ne_true this
  · obtain ⟨r, hr⟩ := h
    have hdrop := congrArg (List.drop p.length) hr
    rw [List.drop_append_of_le_length (Nat.le_of_lt hlt), List.drop_left] at hdrop
    have h1 : sep.drop p.length <+: sep ++ s := ⟨r, hdrop⟩
    have h2 : sep <+: sep ++ s := List.prefix_append _ _
    have h3 : sep.drop p.length <+: sep :=
      List.prefix_of_prefix_length_le h1 h2 (by simp)
    exact hBF p.length hlt (List.length_pos.mpr hne) h3

/-- For a border-free separator, splitting p ++ sep ++ s with the
separator absent from p cuts exactly at that first separator. -/
theorem sepSplit_append_sep (sep : List Char) (hne : sep ≠ [])
    (hBF : ∀ k, k < sep.length → 0 < k → ¬ sep.drop k <+: sep) :
    ∀ (p s : List Char), containsSeq sep p = false →
      sepSplit sep (p ++ (sep ++ s)) = p :: sepSplit sep s := by
  intro p
  induction p with
  | nil =>
    intro s _
    obtain ⟨c, cs, hcs⟩ : ∃ c cs, sep = c :: cs := by
      cases sep with
      | nil => exact absurd rfl hne
      | cons c cs => exact ⟨c, cs, rfl⟩
    subst hcs
    have hpre : (c :: cs).isPrefixOf (c :: (cs ++ s)) = true := by
      rw [List.isPrefixOf_iff_prefix]
      exact ⟨s, by simp⟩
    simp only [List.nil_append, List.cons_append, sepSplit, List.isEmpty_cons, Bool.not_false,
      hpre, Bool.true_and, if_true, List.length_cons, Nat.add_sub_cancel, List.drop_left]
  | cons a p' ih =>
    intro s hp
    simp only [containsSeq, Bool.or_eq_false_iff] at hp
    have hnp : ¬ sep <+: (a :: p') ++ (sep ++ s) :=
      not_prefix_of_append_sep sep (a :: p') s hBF
        (by simp [containsSeq, hp.1, hp.2]) (by simp)
    have h1 : sep.isPrefixOf (a :: (p' ++ (sep ++ s))) = false := by
      by_contra hx
      rw [Bool.not_eq_false, List.isPrefixOf_iff_prefix] at hx
      exact hnp (by simpa using hx)
    simp only [List.cons_append, sepSplit, h1, Bool.and_false, Bool.false_eq_true, if_false,
      ih s hp.2]

/-- The delimiter of Surround::from has no nonempty proper border: no
proper tail of it is one of its own prefixes. -/
theorem midSep_borderFree : ∀ k, k < midSep.length → 0 < k → ¬ midSep.drop k <+: midSep := by
  decide

/-- The delimiter of Surround::from is nonempty. -/
theorem midSep_ne_nil : midSep ≠ [] := by decide

/-- C5: Surround built from a template splits the template on the
delimiter. With no delimiter the whole template becomes the suffix and
nothing is prepended (first conjunct, with its decorate consequence);
with exactly one delimiter the text before it becomes the prefix and the
text after it the suffix (second conjunct); with two or more delimiters
only the first split is honored and everything after the second
delimiter is silently dropped (third conjunct, for any trailing text s),
so the template foo-delimiter-baz-delimiter-quz decorating the content
bar yields foobarbaz (fourth conjunct). -/
theorem c5_surround_template_split :
    (∀ t : String, containsSeq midSep t.data = false →
        Surround.fromTemplate t = { pre := "", post := t } ∧
        ∀ v : View,
          (Surround.fromTemplate t).decorate v = { content := v.content ++ t, mime := v.mime }) ∧
    (∀ p s : String, containsSeq midSep p.data = false → containsSeq midSep s.data = false →
        Surround.fromTemplate (p ++ middleStr ++ s) = { pre := p, post := s }) ∧
    (∀ p q s : String, containsSeq midSep p.data = false → containsSeq midSep q.data = false →
        Surround.fromTemplate (p ++ middleStr ++ (q ++ middleStr ++ s)) =
          { pre := p, post := q }) ∧
    (Surround.fromTemplate "foo\x7b\x7bmiddle\x7d\x7dbaz\x7b\x7bmiddle\x7d\x7dquz").decorate
        (View.new "bar") = { content := "foobarbaz", mime := Mime.textPlain } := by
  have htwo : ∀ p q s : String,
      containsSeq midSep p.data = false → containsSeq midSep q.data = false →
      Surround.fromTemplate (p ++ middleStr ++ (q ++ middleStr ++ s)) =
        { pre := p, post := q } := by
    intro p q s hp hq
    have hdata : (p ++ middleStr ++ (q ++ middleStr ++ s)).data
        = p.data ++ (midSep ++ (q.data ++ (midSep ++ s.data))) := by
      simp [midSep, List.append_assoc]
    have h2 := sepSplit_append_sep midSep midSep_ne_nil midSep_borderFree q.data s.data hq
    have h1 := sepSplit_append_sep midSep midSep_ne_nil midSep_borderFree p.data
      (q.data ++ (midSep ++ s.data)) hp
    rw [h2] at h1
    simp only [Surround.fromTemplate, hdata, h1]
    rfl
  refine ⟨?_, ?_, htwo, ?_⟩
  · intro t ht
    have hfrom : Surround.fromTemplate t = { pre := "", post := t } := by
      simp only [Surround.fromTemplate, sepSplit_of_not_contains midSep t.data ht]
      rfl
    exact ⟨hfrom, fun v => by rw [hfrom]; rfl⟩
  · intro p s hp hs
    have hdata : (p ++ middleStr ++ s).data = p.data ++ (midSep ++ s.data) := by
      simp [midSep, List.append_assoc]
    have h1 := sepSplit_append_sep midSep midSep_ne_nil midSep_borderFree p.data s.data hp
    rw [sepSplit_of_not_contains midSep s.data hs] at h1
    simp only [Surround.fromTemplate, hdata, h1]
    rfl
  · rw [show ("foo\x7b\x7bmiddle\x7d\x7dbaz\x7b\x7bmiddle\x7d\x7dquz" : String)
        = "foo" ++ middleStr ++ ("baz" ++ middleStr ++ "quz") from by decide,
      htwo "foo" "baz" "quz" (by decide) (by decide)]
    rfl

/-- Witness for C5: concrete instances of the conditional conjuncts. -/
theorem c5_surround_template_split_witness :
    containsSeq midSep "barbaz".data = false ∧
      Surround.fromTemplate "barbaz" = { pre := "", post := "barbaz" } ∧
      Surround.fromTemplate ("foo" ++ middleStr ++ "baz") = { pre := "foo", post := "baz" } :=
  ⟨by decide, (c5_surround_template_split.1 "barbaz" (by decide)).1,
    c5_surround_template_split.2.1 "foo" "baz" (by decide) (by decide)⟩

/-- Witness for C7: a server with a single always-matching page whose
handler fails renders the 500 outcome with the error text. -/
theorem c7_handler_errors_forwarded_witness :
    ServerMod.Server.handle
        { pages := [{ resolve := fun _ => some [],
                      handle := fun _ => Except.error "boom" }],
          pageNotFound := fun _ => Except.ok (View.new "Page Not Found") } ["a"] =
      (ServerMod.Status.internalServerError, "boom") :=
  c7_handler_errors_forwarded.2.1 [] [] _ _ ["a"] [] "boom" (by simp) rfl rfl
